import Mathlib

/-!
Shallow embedding of the maintenance engine in `libraries/chain/db_maint.cpp`
(graphene / blockchain repository).

Machine integers are modelled as `Nat`/`Int` with explicit reductions modulo
`2 ^ 64` (`uint64_t`), `2 ^ 128` (`fc::uint128_t`), `2 ^ 32` (`uint32_t`) and
`2 ^ 16` (`uint16_t`) at the places where the C++ code performs unsigned
arithmetic or narrowing conversions.  `share_type` is `fc::safe<int64_t>`,
a checked signed 64-bit integer that throws instead of wrapping; its
non-throwing executions are plain `Int` arithmetic, so `share_type` values
are modelled as `Int` and theorems carry range hypotheses where the checked
type matters.  Fatal `assert` / `FC_ASSERT` checks are modelled by returning
`Option.none`.
-/

set_option linter.unusedVariables false

namespace DbMaint

/-- Modulus of `uint64_t` arithmetic. -/
def UINT64_MOD : Nat := 2 ^ 64

/-- Modulus of `fc::uint128_t` arithmetic. -/
def UINT128_MOD : Nat := 2 ^ 128

/-- Modulus of `uint32_t` arithmetic (the width of `authority::weight_threshold`). -/
def UINT32_MOD : Nat := 2 ^ 32

/-- Modulus of `uint16_t` arithmetic (the width of an authority weight). -/
def UINT16_MOD : Nat := 2 ^ 16

/-! ## Votable objects and `database::sort_votable_objects` (db_maint.cpp lines 52-74) -/

/-- A votable object (witness or committee member) as seen by
`sort_votable_objects`: its object id and its `vote_id`.  The vote tally
buffer is modelled as a function from `vote_id` to the tallied stake. -/
structure Votable where
  id : Nat
  vote_id : Nat
deriving DecidableEq, Repr

/-- The (non-strict closure of the) comparator used by the `std::partial_sort`
call in `sort_votable_objects`:

    if( oa_vote != ob_vote ) return oa_vote > ob_vote;
    return a.vote_id < b.vote_id;

`votableLe tally a b` holds when `a` is ordered no later than `b`: more
tallied votes first, ties broken by ascending `vote_id`. -/
def votableLe (tally : Nat → Nat) (a b : Votable) : Prop :=
  tally a.vote_id > tally b.vote_id ∨
    (tally a.vote_id = tally b.vote_id ∧ a.vote_id ≤ b.vote_id)

instance (tally : Nat → Nat) : DecidableRel (votableLe tally) := fun a b =>
  inferInstanceAs (Decidable (tally a.vote_id > tally b.vote_id ∨
    (tally a.vote_id = tally b.vote_id ∧ a.vote_id ≤ b.vote_id)))

instance (tally : Nat → Nat) : IsTotal Votable (votableLe tally) where
  total a b := by
    rcases Nat.lt_trichotomy (tally a.vote_id) (tally b.vote_id) with h | h | h
    · exact Or.inr (Or.inl h)
    · rcases Nat.le_total a.vote_id b.vote_id with h2 | h2
      · exact Or.inl (Or.inr ⟨h, h2⟩)
      · exact Or.inr (Or.inr ⟨h.symm, h2⟩)
    · exact Or.inl (Or.inl h)

instance (tally : Nat → Nat) : IsTrans Votable (votableLe tally) where
  trans a b c hab hbc := by
    rcases hab with hab | ⟨hab1, hab2⟩
    · rcases hbc with hbc | ⟨hbc1, _⟩
      · exact Or.inl (Nat.lt_trans hbc hab)
      · exact Or.inl (hbc1 ▸ hab)
    · rcases hbc with hbc | ⟨hbc1, hbc2⟩
      · exact Or.inl (hab1 ▸ hbc)
      · exact Or.inr ⟨hab1.trans hbc1, hab2.trans hbc2⟩

/-- `database::sort_votable_objects<Index>(count)` (db_maint.cpp lines 52-74):
clamp `count` to the number of objects, order all objects by the comparator
(most votes first, ties by ascending `vote_id`) and keep the first `count`.
The C++ `std::partial_sort` leaves the first `count` positions in comparator
order; because distinct objects always have distinct `vote_id`s in the chain
state, the comparator is a strict total order and the result coincides with
taking the first `count` elements of the fully sorted sequence. -/
def sort_votable_objects (tally : Nat → Nat) (count : Nat) (objs : List Votable) :
    List Votable :=
  (objs.insertionSort (votableLe tally)).take (min count objs.length)

/-! ## Desired-count derivation (db_maint.cpp lines 160-180 and 245-263) -/

/-- The `while` loop shared by `update_active_witnesses` and
`update_active_committee_members`:

    while( count < hist.size() - 1 && stake_tally <= stake_target )
       stake_tally += hist[++count];

modelled by walking the tail `hist[1..]` of the histogram. -/
def stake_tally_loop (stake_target : Nat) : Nat → List Nat → Nat
  | _, [] => 0
  | stake_tally, h :: rest =>
    if stake_tally ≤ stake_target then 1 + stake_tally_loop stake_target (stake_tally + h) rest
    else 0

/-- The stake target of `update_active_witnesses` (db_maint.cpp line 163):
`(_total_voting_stake - _witness_count_histogram_buffer[0]) / 2` in
`uint64_t` arithmetic (the subtraction wraps modulo `2 ^ 64`). -/
def update_active_witnesses_stake_target (total_voting_stake : Nat)
    (witness_count_histogram : List Nat) : Nat :=
  ((total_voting_stake + UINT64_MOD - witness_count_histogram.headD 0) % UINT64_MOD) / 2

/-- The witness count derived in `update_active_witnesses`
(db_maint.cpp lines 163-177). -/
def update_active_witnesses_count (total_voting_stake : Nat)
    (witness_count_histogram : List Nat) : Nat :=
  let stake_target := update_active_witnesses_stake_target total_voting_stake
    witness_count_histogram
  if stake_target > 0 then stake_tally_loop stake_target 0 (witness_count_histogram.drop 1)
  else 0

/-- The elected witness set of `update_active_witnesses`
(db_maint.cpp lines 179-180):

    sort_votable_objects<witness_index>(
        std::max(witness_count*2+1, (size_t)cpo.immutable_parameters.min_witness_count)) -/
def update_active_witnesses_elected (total_voting_stake : Nat)
    (witness_count_histogram : List Nat) (min_witness_count : Nat)
    (tally : Nat → Nat) (witnesses : List Votable) : List Votable :=
  let witness_count := update_active_witnesses_count total_voting_stake
    witness_count_histogram
  sort_votable_objects tally (max (witness_count * 2 + 1) min_witness_count) witnesses

/-- The stake target of `update_active_committee_members` (db_maint.cpp line 248):
`(_total_voting_stake - _witness_count_histogram_buffer[0]) / 2` — note that the
source subtracts bucket 0 of the *witness* count histogram, not of the
committee count histogram.  The committee histogram is taken as a parameter to
record that it is *not* read here. -/
def update_active_committee_members_stake_target (total_voting_stake : Nat)
    (witness_count_histogram committee_count_histogram : List Nat) : Nat :=
  ((total_voting_stake + UINT64_MOD - witness_count_histogram.headD 0) % UINT64_MOD) / 2

/-- The committee member count derived in `update_active_committee_members`
(db_maint.cpp lines 248-260): the tally loop runs over the committee count
histogram, but the stake target is computed from the witness count histogram. -/
def update_active_committee_members_count (total_voting_stake : Nat)
    (witness_count_histogram committee_count_histogram : List Nat) : Nat :=
  let stake_target := update_active_committee_members_stake_target total_voting_stake
    witness_count_histogram committee_count_histogram
  if stake_target > 0 then
    stake_tally_loop stake_target 0 (committee_count_histogram.drop 1)
  else 0

/-! ## Vote tallying: witness-count histogram update
(`vote_tally_helper::operator()`, db_maint.cpp lines 765-776) -/

/-- The witness-count histogram update performed for one account by
`vote_tally_helper::operator()`:

    if( opinion_account.options.num_witness <= props.parameters.maximum_witness_count )
    {
       uint16_t offset = std::min(size_t(opinion_account.options.num_witness/2),
                                  d._witness_count_histogram_buffer.size() - 1);
       d._witness_count_histogram_buffer[offset] += voting_stake;
    }

The histogram has size `maximum_witness_count / 2 + 1`.  Accounts whose
`num_witness` exceeds `maximum_witness_count` fail the guard and leave the
histogram untouched. -/
def witness_histogram_tally (maximum_witness_count : Nat) (num_witness : Nat)
    (voting_stake : Nat) (hist : List Nat) : List Nat :=
  if num_witness ≤ maximum_witness_count then
    let offset := min (num_witness / 2) (hist.length - 1)
    hist.set offset ((hist.getD offset 0 + voting_stake) % UINT64_MOD)
  else hist

/-! ## Budget: `initialize_budget_record`, `pay_workers`, `process_budget`
(db_maint.cpp lines 117-158, 324-370, 375-469) -/

/-- The `budget_record` structure written by `initialize_budget_record` and
`process_budget`.  All fields default to zero, matching the value-initialised
`budget_record rec;` in `process_budget`. -/
structure budget_record where
  time_since_last_budget : Nat := 0
  from_initial_reserve : Int := 0
  from_accumulated_fees : Int := 0
  from_unused_witness_budget : Int := 0
  requested_witness_budget : Int := 0
  total_budget : Int := 0
  witness_budget : Int := 0
  worker_budget : Int := 0
  leftover_worker_funds : Int := 0
  supply_delta : Int := 0
deriving DecidableEq, Repr

/-- The slice of chain state read and written by the budget passes.
Times are in whole seconds since the epoch (`fc::time_point_sec`);
`last_budget_time = 0` models the unset `fc::time_point_sec()`.
`worker_daily_pay` is the list of `daily_pay` values of the filtered and
sorted active workers, in payment order. -/
structure MaintState where
  current_supply : Int
  accumulated_fees : Int
  witness_budget : Int
  last_budget_time : Nat
  next_maintenance_time : Nat
  now : Nat
  initial_reserve : Int
  witness_pay_per_block : Int
  worker_budget_per_day : Int
  block_interval : Nat
  worker_daily_pay : List Nat
deriving DecidableEq, Repr

/-- `database::initialize_budget_record` (db_maint.cpp lines 324-370),
parameterised by the chain constants `GRAPHENE_CORE_ASSET_CYCLE_RATE`
(`cycle_rate`) and `GRAPHENE_CORE_ASSET_CYCLE_RATE_BITS` (`cycle_rate_bits`),
whose numeric values live in a header outside this repository slice.

The conversions of the `int64_t` values `reserve.value` and `dt` into
`fc::uint128_t` are modelled with `Int.toNat`; they agree with the C++
conversions whenever the values are non-negative, which the range hypotheses
of the theorems guarantee (`dt > 0` holds on the taken branch). -/
def initialize_budget_record (cycle_rate cycle_rate_bits : Nat) (st : MaintState)
    (now : Nat) : budget_record :=
  let rec0 : budget_record :=
    { from_initial_reserve := st.initial_reserve
      from_accumulated_fees := st.accumulated_fees
      from_unused_witness_budget := st.witness_budget }
  if st.last_budget_time = 0 ∨ now ≤ st.last_budget_time then
    { rec0 with time_since_last_budget := 0 }
  else
    let dt : Nat := now - st.last_budget_time
    let reserve : Int := st.initial_reserve + st.accumulated_fees + st.witness_budget
    let b1 : Nat := reserve.toNat * dt % UINT128_MOD
    let b2 : Nat := b1 * cycle_rate % UINT128_MOD
    let b3 : Nat := (b2 + (2 ^ cycle_rate_bits - 1)) % UINT128_MOD
    let b4 : Nat := b3 / 2 ^ cycle_rate_bits
    { rec0 with
      time_since_last_budget := dt
      total_budget :=
        if (b4 : Int) < reserve then Int.ofNat (b4 % UINT64_MOD) else reserve }

/-- `database::pay_workers( share_type& budget )` (db_maint.cpp lines 117-158),
restricted to its arithmetic core: the list of the active workers' `daily_pay`
values (already filtered and sorted by the code above the loop) is walked
while `budget > 0`; each worker requests `daily_pay`, prorated by
`(head_block_time() - last_budget_time)` against `fc::days(1)` when the
elapsed interval differs from one day (a `fc::uint128` computation over
microsecond counts), and receives `min(budget, requested_pay)`.
Returns the final budget together with the list of payments made. -/
def pay_workers (now last_budget_time : Nat) : Int → List Nat → Int × List Int
  | budget, [] => (budget, [])
  | budget, daily_pay :: rest =>
    if budget > 0 then
      let requested_pay : Int :=
        if (now - last_budget_time) * 1000000 = 86400000000 then Int.ofNat daily_pay
        else Int.ofNat
          (daily_pay * ((now - last_budget_time) * 1000000) % UINT128_MOD
            / 86400000000 % UINT64_MOD)
      let actual_pay : Int := min budget requested_pay
      let next := pay_workers now last_budget_time (budget - actual_pay) rest
      (next.1, actual_pay :: next.2)
    else (budget, [])

/-- `database::process_budget()` (db_maint.cpp lines 375-469), parameterised
like `initialize_budget_record`.  The two `assert` statements
(`time_to_maint > 0`, `block_interval > 0`) are modelled as `none`.
Returns the updated state together with the `budget_record` appended to the
budget ledger. -/
def process_budget (cycle_rate cycle_rate_bits : Nat) (st : MaintState) :
    Option (MaintState × budget_record) :=
  if (st.next_maintenance_time : Int) - (st.now : Int) ≤ 0 then none
  else if st.block_interval = 0 then none
  else
    let time_to_maint : Int := (st.next_maintenance_time : Int) - (st.now : Int)
    let blocks_to_maint : Nat :=
      (time_to_maint.toNat + st.block_interval - 1) / st.block_interval
    let rec1 := initialize_budget_record cycle_rate cycle_rate_bits st st.now
    let available_funds0 : Int := rec1.total_budget
    let requested_witness_budget : Int := st.witness_pay_per_block * (blocks_to_maint : Int)
    let witness_budget : Int := min requested_witness_budget available_funds0
    let available_funds1 : Int := available_funds0 - witness_budget
    let worker_budget_u128 : Nat :=
      st.worker_budget_per_day.toNat * time_to_maint.toNat % UINT128_MOD / 86400
    let worker_budget : Int :=
      if (worker_budget_u128 : Int) ≥ available_funds1 then available_funds1
      else Int.ofNat (worker_budget_u128 % UINT64_MOD)
    let pw := pay_workers st.now st.last_budget_time worker_budget st.worker_daily_pay
    let leftover_worker_funds : Int := pw.1
    let rec2 : budget_record :=
      { rec1 with
        requested_witness_budget := requested_witness_budget
        witness_budget := witness_budget
        worker_budget := worker_budget
        leftover_worker_funds := leftover_worker_funds
        supply_delta := witness_budget + worker_budget - leftover_worker_funds
          - rec1.from_accumulated_fees - rec1.from_unused_witness_budget }
    some
      ({ st with
          current_supply := st.current_supply + rec2.supply_delta
          accumulated_fees := 0
          witness_budget := witness_budget
          last_budget_time := st.now },
        rec2)

/-! ## FBA fee split (`split_fba_balance`, db_maint.cpp lines 529-605) -/

/-- The slice of state read and written by `split_fba_balance` for one pool:
the pool's `accumulated_fba_fees`, the core asset's `current_supply`, whether
the pool `is_configured`, and the balances credited to the designated asset's
buyback account and issuer. -/
structure fba_state where
  accumulated_fba_fees : Int
  current_supply : Int
  is_configured : Bool
  buyback_balance : Int
  issuer_balance : Int
deriving DecidableEq, Repr

/-- `split_fba_balance(db, fba_id, network_pct, buyback_pct, issuer_pct)`
(db_maint.cpp lines 529-605), parameterised by `GRAPHENE_100_PERCENT`
(`p100`), whose numeric value lives in a header outside this repository
slice.  The two `FC_ASSERT`s (percentages must sum to `GRAPHENE_100_PERCENT`;
`buyback_amount + issuer_amount <= accumulated_fba_fees`) are modelled as
`none`.  The `fc::uint128_t` products and the `to_uint64()` narrowings are
modelled with the explicit moduli. -/
def split_fba_balance (p100 : Nat)
    (network_pct buyback_pct issuer_pct : Nat) (st : fba_state) : Option fba_state :=
  if network_pct + buyback_pct + issuer_pct ≠ p100 then none
  else if st.accumulated_fba_fees = 0 then some st
  else if st.is_configured = false then
    some { st with
      current_supply := st.current_supply - st.accumulated_fba_fees
      accumulated_fba_fees := 0 }
  else
    let buyback_amount : Int :=
      Int.ofNat (st.accumulated_fba_fees.toNat * buyback_pct % UINT128_MOD / p100
        % UINT64_MOD)
    let issuer_amount : Int :=
      Int.ofNat (st.accumulated_fba_fees.toNat * issuer_pct % UINT128_MOD / p100
        % UINT64_MOD)
    if st.accumulated_fba_fees < buyback_amount + issuer_amount then none
    else
      let network_amount : Int := st.accumulated_fba_fees - (buyback_amount + issuer_amount)
      some { st with
        current_supply := st.current_supply - network_amount
        accumulated_fba_fees := 0
        buyback_balance := st.buyback_balance + buyback_amount
        issuer_balance := st.issuer_balance + issuer_amount }

/-! ## Legacy (pre-HARDFORK_533) authority construction
(db_maint.cpp lines 196-223 and 277-303) -/

/-- `std::map<account_id_type, uint64_t>::emplace`: insert `(k, v)` into an
association list kept sorted by key; if the key is already present the map is
unchanged (emplace does not overwrite). -/
def map_emplace (k v : Nat) : List (Nat × Nat) → List (Nat × Nat)
  | [] => [(k, v)]
  | q :: rest =>
    if k < q.1 then (k, v) :: q :: rest
    else if k = q.1 then q :: rest
    else q :: map_emplace k v rest

/-- The `weights` map built by the legacy authority loop: one `emplace` per
selected member, in iteration order. -/
def build_weights (members : List (Nat × Nat)) : List (Nat × Nat) :=
  members.foldl (fun m p => map_emplace p.1 p.2 m) []

/-- `boost::multiprecision::detail::find_msb`: index of the most significant
set bit, i.e. `Nat.log2` for positive inputs (the C++ call is undefined on 0,
so theorems assume a positive total). -/
def find_msb (n : Nat) : Nat := Nat.log2 n

/-- The legacy (pre-`HARDFORK_533`) authority construction shared by
`update_active_witnesses` (db_maint.cpp lines 196-223) and
`update_active_committee_members` (lines 277-303).  Input: the selected
members as `(account, raw_weight)` pairs in iteration order, where
`raw_weight = _vote_tally_buffer[member.vote_id]`.

    uint64_t total_votes = sum of raw weights            (uint64 accumulation)
    int8_t bits_to_drop = max(find_msb(total_votes) - 15, 0)
    for each map entry: uint16_t votes = max(weight >> bits_to_drop, 1)
                        account_auths[account] += votes   (from 0, once per key)
                        weight_threshold += votes          (uint32 accumulation)
    weight_threshold = weight_threshold / 2 + 1

Returns the `account_auths` entries (in map key order) and the final
`weight_threshold`. -/
def legacy_authority (members : List (Nat × Nat)) : List (Nat × Nat) × Nat :=
  let total_votes : Nat := members.foldl (fun acc p => (acc + p.2) % UINT64_MOD) 0
  let weights := build_weights members
  let bits_to_drop : Nat := find_msb total_votes - 15
  let account_auths : List (Nat × Nat) :=
    weights.map (fun p => (p.1, (max (p.2 >>> bits_to_drop) 1) % UINT16_MOD))
  let weight_threshold : Nat :=
    (account_auths.foldl (fun acc p => (acc + p.2) % UINT32_MOD) 0) / 2 + 1
  (account_auths, weight_threshold)

/-! ## Concrete states used by witnesses and counterexamples -/

/-- A constant vote tally buffer (every candidate has 7 votes). -/
def c2Tally : Nat → Nat := fun _ => 7

/-- An all-zero vote tally buffer. -/
def c3Tally : Nat → Nat := fun _ => 0

/-- A concrete chain state for exercising `process_budget`: a non-first pass
(`last_budget_time = 100 ≠ 0`, `now = 1100`) with 1000 seconds elapsed and
900 seconds until the next maintenance. -/
def c1State : MaintState :=
  { current_supply := 1000000, accumulated_fees := 10, witness_budget := 5,
    last_budget_time := 100, next_maintenance_time := 2000, now := 1100,
    initial_reserve := 500000, witness_pay_per_block := 1,
    worker_budget_per_day := 86400, block_interval := 5, worker_daily_pay := [3] }

/-- The state and budget record produced by `process_budget` on `c1State`. -/
def c1Pair : MaintState × budget_record :=
  (process_budget 17 32 c1State).getD (c1State, {})

/-- A concrete chain state for exercising `initialize_budget_record`:
reserve `500000 + 10 + 5 = 500015`, elapsed time 1000 seconds. -/
def c4State : MaintState :=
  { current_supply := 1000000, accumulated_fees := 10, witness_budget := 5,
    last_budget_time := 100, next_maintenance_time := 2000, now := 1100,
    initial_reserve := 500000, witness_pay_per_block := 1,
    worker_budget_per_day := 86400, block_interval := 5, worker_daily_pay := [] }

/-- A concrete chain state separating the elapsed interval from the interval
until the next maintenance: `now - last_budget_time = 1000` seconds but
`next_maintenance_time - now = 2000` seconds, with `worker_budget_per_day =
86400` so the two candidate worker budgets are `1000` and `2000`, and a
reserve large enough that neither is capped. -/
def c5State : MaintState :=
  { current_supply := 1000000, accumulated_fees := 0, witness_budget := 0,
    last_budget_time := 100, next_maintenance_time := 3100, now := 1100,
    initial_reserve := 100000000000, witness_pay_per_block := 0,
    worker_budget_per_day := 86400, block_interval := 5, worker_daily_pay := [] }

/-- The state and budget record produced by `process_budget` on `c5State`. -/
def c5Pair : MaintState × budget_record :=
  (process_budget 17 32 c5State).getD (c5State, {})

end DbMaint

namespace DbMaint

/-! ## Theorems -/

/-- Folding `uint64`-style modular accumulation over a list equals reducing
the plain sum modulo `M`. -/
theorem foldl_mod_sum (M : Nat) (l : List (Nat × Nat)) (a : Nat) :
    l.foldl (fun acc p => (acc + p.2) % M) (a % M) = (a + (l.map Prod.snd).sum) % M := by
  induction l generalizing a with
  | nil => simp
  | cons q t ih =>
    simp only [List.foldl_cons, List.map_cons, List.sum_cons]
    rw [Nat.mod_add_mod, ih (a + q.2), Nat.add_assoc]

/-- Every element of `map_emplace k v m` is either the inserted pair or an
element of `m`. -/
theorem mem_map_emplace {p : Nat × Nat} (k v : Nat) (m : List (Nat × Nat))
    (h : p ∈ map_emplace k v m) : p = (k, v) ∨ p ∈ m := by
  induction m with
  | nil => simpa [map_emplace] using h
  | cons q t ih =>
    simp only [map_emplace] at h
    by_cases h1 : k < q.1
    · rw [if_pos h1] at h
      rcases List.mem_cons.mp h with h2 | h2
      · exact Or.inl h2
      · exact Or.inr h2
    · rw [if_neg h1] at h
      by_cases h2 : k = q.1
      · rw [if_pos h2] at h
        exact Or.inr h
      · rw [if_neg h2] at h
        rcases List.mem_cons.mp h with h3 | h3
        · exact Or.inr (List.mem_cons.mpr (Or.inl h3))
        · rcases ih h3 with h4 | h4
          · exact Or.inl h4
          · exact Or.inr (List.mem_cons_of_mem _ h4)

/-- `map_emplace` grows the map by at most one entry. -/
theorem map_emplace_length (k v : Nat) (m : List (Nat × Nat)) :
    (map_emplace k v m).length ≤ m.length + 1 := by
  induction m with
  | nil => simp [map_emplace]
  | cons q t ih =>
    simp only [map_emplace]
    split
    · simp
    · split
      · simp only [List.length_cons]
        omega
      · simp only [List.length_cons]
        omega

/-- `map_emplace` never returns the empty map. -/
theorem map_emplace_ne_nil (k v : Nat) (m : List (Nat × Nat)) :
    map_emplace k v m ≠ [] := by
  cases m with
  | nil => simp [map_emplace]
  | cons q t =>
    simp only [map_emplace]
    split
    · simp
    · split <;> simp

/-- Elements of the emplace fold come from the initial map or the input
list. -/
theorem foldl_emplace_mem (ms : List (Nat × Nat)) (init : List (Nat × Nat))
    (p : Nat × Nat)
    (h : p ∈ ms.foldl (fun m q => map_emplace q.1 q.2 m) init) :
    p ∈ init ∨ p ∈ ms := by
  induction ms generalizing init with
  | nil => exact Or.inl h
  | cons q t ih =>
    simp only [List.foldl_cons] at h
    rcases ih _ h with h2 | h2
    · rcases mem_map_emplace _ _ _ h2 with h3 | h3
      · exact Or.inr (List.mem_cons.mpr (Or.inl h3))
      · exact Or.inl h3
    · exact Or.inr (List.mem_cons_of_mem _ h2)

/-- The emplace fold grows the map by at most one entry per input element. -/
theorem foldl_emplace_length (ms : List (Nat × Nat)) (init : List (Nat × Nat)) :
    (ms.foldl (fun m q => map_emplace q.1 q.2 m) init).length
      ≤ init.length + ms.length := by
  induction ms generalizing init with
  | nil => simp
  | cons q t ih =>
    simp only [List.foldl_cons, List.length_cons]
    have h1 := ih (map_emplace q.1 q.2 init)
    have h2 := map_emplace_length q.1 q.2 init
    omega

/-- The emplace fold of a non-empty map never empties it. -/
theorem foldl_emplace_ne_nil (ms : List (Nat × Nat)) (init : List (Nat × Nat))
    (h : init ≠ []) :
    ms.foldl (fun m q => map_emplace q.1 q.2 m) init ≠ [] := by
  induction ms generalizing init with
  | nil => exact h
  | cons q t ih =>
    simp only [List.foldl_cons]
    exact ih _ (map_emplace_ne_nil _ _ _)

/-- Every entry of the `weights` map is one of the input `(account, weight)`
pairs. -/
theorem build_weights_mem (ms : List (Nat × Nat)) (p : Nat × Nat)
    (h : p ∈ build_weights ms) : p ∈ ms := by
  unfold build_weights at h
  rcases foldl_emplace_mem ms [] p h with h2 | h2
  · simp at h2
  · exact h2

/-- The `weights` map has no more entries than there are members. -/
theorem build_weights_length (ms : List (Nat × Nat)) :
    (build_weights ms).length ≤ ms.length := by
  have h := foldl_emplace_length ms []
  simpa [build_weights] using h

/-- The `weights` map of a non-empty member list is non-empty. -/
theorem build_weights_ne_nil (ms : List (Nat × Nat)) (h : ms ≠ []) :
    build_weights ms ≠ [] := by
  unfold build_weights
  cases ms with
  | nil => exact absurd rfl h
  | cons q t =>
    simp only [List.foldl_cons]
    exact foldl_emplace_ne_nil t _ (map_emplace_ne_nil _ _ _)

/-- Claim C7: for every authority constructed by the legacy
(pre-`HARDFORK_533`) path over a non-empty member set, every emitted per-key
weight lies in `[1, 2^16 - 1]` (the weight is `max(raw_weight >> bits_to_drop,
1)`, never zero and never truncated by the `uint16_t` conversion), the
`weight_threshold` equals `floor(sum of emitted weights / 2) + 1`, and the
sum of emitted weights is at least the threshold.  The hypotheses state that
the raw tallies are not all zero (`find_msb(0)` is undefined behaviour in the
source), that their `uint64_t` sum does not wrap, and that there are at most
`2^16` members (so the `uint32_t` threshold accumulation does not wrap; the
chain caps the member count far below this). -/
theorem legacy_authority_weights_threshold (members : List (Nat × Nat))
    (hne : members ≠ [])
    (hpos : 0 < (members.map Prod.snd).sum)
    (hsum64 : (members.map Prod.snd).sum < UINT64_MOD)
    (hcount : members.length ≤ 2 ^ 16) :
    (∀ p ∈ (legacy_authority members).1, 1 ≤ p.2 ∧ p.2 ≤ 2 ^ 16 - 1) ∧
    (legacy_authority members).2
        = ((legacy_authority members).1.map Prod.snd).sum / 2 + 1 ∧
    (legacy_authority members).2 ≤ ((legacy_authority members).1.map Prod.snd).sum := by
  have htot : members.foldl (fun acc p => (acc + p.2) % UINT64_MOD) 0
      = (members.map Prod.snd).sum := by
    have h0 : (0 : Nat) = 0 % UINT64_MOD := (Nat.zero_mod _).symm
    rw [h0, foldl_mod_sum, Nat.zero_add, Nat.mod_eq_of_lt hsum64]
  have hemit : ∀ v, v ≤ (members.map Prod.snd).sum →
      (max (v >>> (Nat.log2 (members.map Prod.snd).sum - 15)) 1) % UINT16_MOD
          = max (v >>> (Nat.log2 (members.map Prod.snd).sum - 15)) 1 ∧
      1 ≤ max (v >>> (Nat.log2 (members.map Prod.snd).sum - 15)) 1 ∧
      max (v >>> (Nat.log2 (members.map Prod.snd).sum - 15)) 1 ≤ 2 ^ 16 - 1 := by
    intro v hv
    have hS0 : (members.map Prod.snd).sum ≠ 0 := by omega
    have hlt : v >>> (Nat.log2 (members.map Prod.snd).sum - 15) < 2 ^ 16 := by
      rw [Nat.shiftRight_eq_div_pow]
      by_cases hS : (members.map Prod.snd).sum < 2 ^ 16
      · have hlog : Nat.log2 (members.map Prod.snd).sum < 16 :=
          (Nat.log2_lt hS0).mpr hS
        have hd0 : Nat.log2 (members.map Prod.snd).sum - 15 = 0 := by omega
        rw [hd0, pow_zero, Nat.div_one]
        omega
      · push_neg at hS
        have hlog : 16 ≤ Nat.log2 (members.map Prod.snd).sum :=
          (Nat.le_log2 hS0).mpr hS
        have hSlt : (members.map Prod.snd).sum
            < 2 ^ (Nat.log2 (members.map Prod.snd).sum + 1) :=
          (Nat.log2_lt hS0).mp (Nat.lt_succ_self _)
        have heq2 : Nat.log2 (members.map Prod.snd).sum + 1
            = (Nat.log2 (members.map Prod.snd).sum - 15) + 16 := by omega
        rw [heq2, pow_add] at hSlt
        have hmono : v / 2 ^ (Nat.log2 (members.map Prod.snd).sum - 15)
            ≤ (members.map Prod.snd).sum
              / 2 ^ (Nat.log2 (members.map Prod.snd).sum - 15) :=
          Nat.div_le_div_right hv
        have hdiv : (members.map Prod.snd).sum
            / 2 ^ (Nat.log2 (members.map Prod.snd).sum - 15) < 2 ^ 16 :=
          Nat.div_lt_of_lt_mul hSlt
        omega
    refine ⟨Nat.mod_eq_of_lt (by unfold UINT16_MOD; omega), le_max_right _ _, by omega⟩
  simp only [legacy_authority, find_msb, htot]
  set S := (members.map Prod.snd).sum with hSdef
  set A : List (Nat × Nat) := (build_weights members).map
    (fun p => (p.1, (max (p.2 >>> (Nat.log2 S - 15)) 1) % UINT16_MOD)) with hAdef
  have hAelem : ∀ p ∈ A, 1 ≤ p.2 ∧ p.2 ≤ 2 ^ 16 - 1 := by
    intro p hp
    obtain ⟨q, hq, hqe⟩ := List.mem_map.mp hp
    have hqm : q ∈ members := build_weights_mem members q hq
    have hqv : q.2 ≤ S := by
      have hmem : q.2 ∈ members.map Prod.snd := List.mem_map_of_mem _ hqm
      exact List.le_sum_of_mem hmem
    obtain ⟨he1, he2, he3⟩ := hemit q.2 hqv
    rw [← hqe]
    simp only
    rw [he1]
    exact ⟨he2, he3⟩
  have hAlen : A.length ≤ 2 ^ 16 := by
    have h1 : A.length = (build_weights members).length := List.length_map _ _
    have h2 := build_weights_length members
    omega
  have hAne : A ≠ [] := by
    intro hAnil
    have h1 : (build_weights members) = [] := by
      have := List.map_eq_nil_iff.mp (hAdef ▸ hAnil)
      exact this
    exact build_weights_ne_nil members hne h1
  have hTle : (A.map Prod.snd).sum ≤ 2 ^ 16 * (2 ^ 16 - 1) := by
    have h1 : ∀ x ∈ A.map Prod.snd, x ≤ 2 ^ 16 - 1 := by
      intro x hx
      obtain ⟨p, hp, hpe⟩ := List.mem_map.mp hx
      rw [← hpe]
      exact (hAelem p hp).2
    have h2 := List.sum_le_card_nsmul (A.map Prod.snd) (2 ^ 16 - 1) h1
    have h3 : (A.map Prod.snd).length = A.length := List.length_map _ _
    simp only [smul_eq_mul] at h2
    have h4 : (A.map Prod.snd).length * (2 ^ 16 - 1) ≤ 2 ^ 16 * (2 ^ 16 - 1) := by
      apply Nat.mul_le_mul_right
      omega
    omega
  have hTpos : 1 ≤ (A.map Prod.snd).sum := by
    have h1 : ∀ x ∈ A.map Prod.snd, 1 ≤ x := by
      intro x hx
      obtain ⟨p, hp, hpe⟩ := List.mem_map.mp hx
      rw [← hpe]
      exact (hAelem p hp).1
    have h2 := List.card_nsmul_le_sum (A.map Prod.snd) 1 h1
    have h3 : (A.map Prod.snd).length = A.length := List.length_map _ _
    have h4 : 1 ≤ A.length := by
      cases hA : A with
      | nil => exact absurd hA hAne
      | cons p t => simp [hA]
    simp only [smul_eq_mul, Nat.mul_one] at h2
    omega
  have hthr : A.foldl (fun acc p => (acc + p.2) % UINT32_MOD) 0
      = (A.map Prod.snd).sum := by
    have h0 : (0 : Nat) = 0 % UINT32_MOD := (Nat.zero_mod _).symm
    rw [h0, foldl_mod_sum, Nat.zero_add]
    apply Nat.mod_eq_of_lt
    unfold UINT32_MOD
    omega
  rw [hthr]
  exact ⟨hAelem, rfl, by omega⟩

/-- Witness for C7: three members with tallies `200000 / 100000 / 100000`:
`total = 400000`, `bits_to_drop = 3`, emitted weights `25000 / 12500 /
12500`, threshold `50000 / 2 + 1 = 25001 ≤ 50000`. -/
theorem legacy_authority_weights_threshold_witness :
    (∀ p ∈ (legacy_authority [(3, 100000), (1, 200000), (2, 100000)]).1,
      1 ≤ p.2 ∧ p.2 ≤ 2 ^ 16 - 1) ∧
    (legacy_authority [(3, 100000), (1, 200000), (2, 100000)]).2
        = ((legacy_authority [(3, 100000), (1, 200000), (2, 100000)]).1.map
            Prod.snd).sum / 2 + 1 ∧
    (legacy_authority [(3, 100000), (1, 200000), (2, 100000)]).2
        ≤ ((legacy_authority [(3, 100000), (1, 200000), (2, 100000)]).1.map
            Prod.snd).sum :=
  legacy_authority_weights_threshold [(3, 100000), (1, 200000), (2, 100000)]
    (by decide) (by decide) (by decide) (by decide)

/-- Claim C9: in `update_active_committee_members`, the stake target is
`(total_voting_stake - witness_count_histogram[0]) / 2`: it subtracts bucket 0
of the *witness* count histogram, not of the committee count histogram
(behaviour preserved bug-for-bug).  The first conjunct states the formula in
exact arithmetic (the `uint64_t` wrap is removable when bucket 0 does not
exceed the total stake); the last two conjuncts evaluate the function on
states whose two histograms are swapped, showing that the result follows the
witness histogram (bucket 10 vs bucket 40) and ignores the committee one. -/
theorem update_active_committee_members_stake_target_uses_witness_histogram :
    (∀ (total : Nat) (wh ch : List Nat), wh.headD 0 ≤ total → total < UINT64_MOD →
      update_active_committee_members_stake_target total wh ch
        = (total - wh.headD 0) / 2) ∧
    update_active_committee_members_stake_target 100 [10, 7] [40, 7] = 45 ∧
    update_active_committee_members_stake_target 100 [40, 7] [10, 7] = 30 := by
  refine ⟨?_, by decide, by decide⟩
  intro total wh ch h1 h2
  unfold update_active_committee_members_stake_target UINT64_MOD at *
  omega

/-- Witness for C9: on a concrete state (total stake 10, witness histogram
bucket 0 equal to 4) the stake target is `(10 - 4) / 2 = 3`. -/
theorem update_active_committee_members_stake_target_witness :
    update_active_committee_members_stake_target 10 [4] [9] = (10 - 4) / 2 :=
  update_active_committee_members_stake_target_uses_witness_histogram.1
    10 [4] [9] (by decide) (by decide)

/-- Claim C6: for a configured FBA pool, `split_fba_balance` computes
`buyback = floor(accumulated * buyback_pct / GRAPHENE_100_PERCENT)`,
`issuer = floor(accumulated * issuer_pct / GRAPHENE_100_PERCENT)` and
`network = accumulated - buyback - issuer`; the split is conservative
(`network + buyback + issuer = accumulated` before the split), the pool's
`accumulated_fba_fees` is zero afterwards, and the core `current_supply`
decreases by exactly `network`.  The internal `FC_ASSERT
(buyback + issuer <= accumulated)` is proved never to fire.  The range
hypotheses state that the pool holds a valid non-negative `share_type`
amount and that the 128-bit products cannot wrap. -/
theorem split_fba_balance_conservative (p100 network_pct buyback_pct issuer_pct : Nat)
    (st : fba_state)
    (hp : 0 < p100)
    (hsum : network_pct + buyback_pct + issuer_pct = p100)
    (hconf : st.is_configured = true)
    (hacc : 0 ≤ st.accumulated_fba_fees)
    (hmul : st.accumulated_fba_fees.toNat * p100 < UINT128_MOD)
    (hacc63 : st.accumulated_fba_fees < 2 ^ 63) :
    ∃ st2, split_fba_balance p100 network_pct buyback_pct issuer_pct st = some st2 ∧
      st2.buyback_balance = st.buyback_balance
          + Int.ofNat (st.accumulated_fba_fees.toNat * buyback_pct / p100) ∧
      st2.issuer_balance = st.issuer_balance
          + Int.ofNat (st.accumulated_fba_fees.toNat * issuer_pct / p100) ∧
      st2.accumulated_fba_fees = 0 ∧
      st2.current_supply = st.current_supply
          - (st.accumulated_fba_fees
            - (Int.ofNat (st.accumulated_fba_fees.toNat * buyback_pct / p100)
              + Int.ofNat (st.accumulated_fba_fees.toNat * issuer_pct / p100))) ∧
      (st.accumulated_fba_fees
          - (Int.ofNat (st.accumulated_fba_fees.toNat * buyback_pct / p100)
            + Int.ofNat (st.accumulated_fba_fees.toNat * issuer_pct / p100)))
        + Int.ofNat (st.accumulated_fba_fees.toNat * buyback_pct / p100)
        + Int.ofNat (st.accumulated_fba_fees.toNat * issuer_pct / p100)
      = st.accumulated_fba_fees := by
  by_cases hz : st.accumulated_fba_fees = 0
  · refine ⟨st, ?_, ?_, ?_, hz, ?_, ?_⟩
    · unfold split_fba_balance
      rw [if_neg (by omega), if_pos hz]
    all_goals simp [hz]
  · have hbp : buyback_pct ≤ p100 := by omega
    have hip : issuer_pct ≤ p100 := by omega
    have hmb : st.accumulated_fba_fees.toNat * buyback_pct % UINT128_MOD
        = st.accumulated_fba_fees.toNat * buyback_pct := by
      apply Nat.mod_eq_of_lt
      calc st.accumulated_fba_fees.toNat * buyback_pct
          ≤ st.accumulated_fba_fees.toNat * p100 := Nat.mul_le_mul_left _ hbp
        _ < UINT128_MOD := hmul
    have hmi : st.accumulated_fba_fees.toNat * issuer_pct % UINT128_MOD
        = st.accumulated_fba_fees.toNat * issuer_pct := by
      apply Nat.mod_eq_of_lt
      calc st.accumulated_fba_fees.toNat * issuer_pct
          ≤ st.accumulated_fba_fees.toNat * p100 := Nat.mul_le_mul_left _ hip
        _ < UINT128_MOD := hmul
    have hdb : st.accumulated_fba_fees.toNat * buyback_pct / p100
        ≤ st.accumulated_fba_fees.toNat := by
      calc st.accumulated_fba_fees.toNat * buyback_pct / p100
          ≤ st.accumulated_fba_fees.toNat * p100 / p100 :=
            Nat.div_le_div_right (Nat.mul_le_mul_left _ hbp)
        _ = st.accumulated_fba_fees.toNat := Nat.mul_div_cancel _ hp
    have hdi : st.accumulated_fba_fees.toNat * issuer_pct / p100
        ≤ st.accumulated_fba_fees.toNat := by
      calc st.accumulated_fba_fees.toNat * issuer_pct / p100
          ≤ st.accumulated_fba_fees.toNat * p100 / p100 :=
            Nat.div_le_div_right (Nat.mul_le_mul_left _ hip)
        _ = st.accumulated_fba_fees.toNat := Nat.mul_div_cancel _ hp
    have hmb64 : st.accumulated_fba_fees.toNat * buyback_pct / p100 % UINT64_MOD
        = st.accumulated_fba_fees.toNat * buyback_pct / p100 := by
      apply Nat.mod_eq_of_lt
      have h63 : st.accumulated_fba_fees.toNat < 2 ^ 63 := by omega
      unfold UINT64_MOD
      omega
    have hmi64 : st.accumulated_fba_fees.toNat * issuer_pct / p100 % UINT64_MOD
        = st.accumulated_fba_fees.toNat * issuer_pct / p100 := by
      apply Nat.mod_eq_of_lt
      have h63 : st.accumulated_fba_fees.toNat < 2 ^ 63 := by omega
      unfold UINT64_MOD
      omega
    have hsum_le : st.accumulated_fba_fees.toNat * buyback_pct / p100
        + st.accumulated_fba_fees.toNat * issuer_pct / p100
        ≤ st.accumulated_fba_fees.toNat := by
      have hstep : st.accumulated_fba_fees.toNat * buyback_pct / p100
          + st.accumulated_fba_fees.toNat * issuer_pct / p100
          ≤ (st.accumulated_fba_fees.toNat * buyback_pct
            + st.accumulated_fba_fees.toNat * issuer_pct) / p100 := by
        rw [Nat.le_div_iff_mul_le hp, Nat.add_mul]
        exact Nat.add_le_add (Nat.div_mul_le_self _ _) (Nat.div_mul_le_self _ _)
      have hstep2 : (st.accumulated_fba_fees.toNat * buyback_pct
          + st.accumulated_fba_fees.toNat * issuer_pct) / p100
          ≤ st.accumulated_fba_fees.toNat := by
        calc (st.accumulated_fba_fees.toNat * buyback_pct
            + st.accumulated_fba_fees.toNat * issuer_pct) / p100
            = st.accumulated_fba_fees.toNat * (buyback_pct + issuer_pct) / p100 := by
              rw [Nat.mul_add]
          _ ≤ st.accumulated_fba_fees.toNat * p100 / p100 :=
              Nat.div_le_div_right (Nat.mul_le_mul_left _ (by omega))
          _ = st.accumulated_fba_fees.toNat := Nat.mul_div_cancel _ hp
      exact le_trans hstep hstep2
    have hcast : Int.ofNat (st.accumulated_fba_fees.toNat * buyback_pct / p100)
        + Int.ofNat (st.accumulated_fba_fees.toNat * issuer_pct / p100)
        ≤ st.accumulated_fba_fees := by
      have h1 : ((st.accumulated_fba_fees.toNat * buyback_pct / p100
          + st.accumulated_fba_fees.toNat * issuer_pct / p100 : Nat) : Int)
          ≤ ((st.accumulated_fba_fees.toNat : Nat) : Int) := by
        exact_mod_cast hsum_le
      rw [Int.toNat_of_nonneg hacc] at h1
      simp only [Int.ofNat_eq_natCast]
      omega
    have heq : split_fba_balance p100 network_pct buyback_pct issuer_pct st
        = some { st with
            current_supply := st.current_supply
              - (st.accumulated_fba_fees
                - (Int.ofNat (st.accumulated_fba_fees.toNat * buyback_pct / p100)
                  + Int.ofNat (st.accumulated_fba_fees.toNat * issuer_pct / p100)))
            accumulated_fba_fees := 0
            buyback_balance := st.buyback_balance
              + Int.ofNat (st.accumulated_fba_fees.toNat * buyback_pct / p100)
            issuer_balance := st.issuer_balance
              + Int.ofNat (st.accumulated_fba_fees.toNat * issuer_pct / p100) } := by
      unfold split_fba_balance
      rw [if_neg (by omega), if_neg hz, if_neg (by rw [hconf]; simp)]
      show (if st.accumulated_fba_fees
            < Int.ofNat (st.accumulated_fba_fees.toNat * buyback_pct % UINT128_MOD
                / p100 % UINT64_MOD)
              + Int.ofNat (st.accumulated_fba_fees.toNat * issuer_pct % UINT128_MOD
                / p100 % UINT64_MOD)
          then none
          else some { st with
            current_supply := st.current_supply
              - (st.accumulated_fba_fees
                - (Int.ofNat (st.accumulated_fba_fees.toNat * buyback_pct % UINT128_MOD
                    / p100 % UINT64_MOD)
                  + Int.ofNat (st.accumulated_fba_fees.toNat * issuer_pct % UINT128_MOD
                    / p100 % UINT64_MOD)))
            accumulated_fba_fees := 0
            buyback_balance := st.buyback_balance
              + Int.ofNat (st.accumulated_fba_fees.toNat * buyback_pct % UINT128_MOD
                / p100 % UINT64_MOD)
            issuer_balance := st.issuer_balance
              + Int.ofNat (st.accumulated_fba_fees.toNat * issuer_pct % UINT128_MOD
                / p100 % UINT64_MOD) })
        = some { st with
            current_supply := st.current_supply
              - (st.accumulated_fba_fees
                - (Int.ofNat (st.accumulated_fba_fees.toNat * buyback_pct / p100)
                  + Int.ofNat (st.accumulated_fba_fees.toNat * issuer_pct / p100)))
            accumulated_fba_fees := 0
            buyback_balance := st.buyback_balance
              + Int.ofNat (st.accumulated_fba_fees.toNat * buyback_pct / p100)
            issuer_balance := st.issuer_balance
              + Int.ofNat (st.accumulated_fba_fees.toNat * issuer_pct / p100) }
      rw [hmb, hmi, hmb64, hmi64, if_neg (not_lt.mpr hcast)]
    refine ⟨_, heq, rfl, rfl, rfl, rfl, by omega⟩

/-- Witness for C6: a configured pool of 1000 split 20/60/20 (with
`GRAPHENE_100_PERCENT = 10000` and `GRAPHENE_1_PERCENT = 100`, the
percentages are `2000 / 6000 / 2000`): `buyback = 600`, `issuer = 200`,
`network = 200`; the supply drops by 200 and the pool is zeroed. -/
theorem split_fba_balance_conservative_witness :
    ∃ st2, split_fba_balance 10000 2000 6000 2000
        { accumulated_fba_fees := 1000, current_supply := 1000000,
          is_configured := true, buyback_balance := 0, issuer_balance := 0 }
        = some st2 ∧
      st2.buyback_balance = 0 + Int.ofNat ((1000 : Int).toNat * 6000 / 10000) ∧
      st2.issuer_balance = 0 + Int.ofNat ((1000 : Int).toNat * 2000 / 10000) ∧
      st2.accumulated_fba_fees = 0 ∧
      st2.current_supply = 1000000
          - ((1000 : Int) - (Int.ofNat ((1000 : Int).toNat * 6000 / 10000)
            + Int.ofNat ((1000 : Int).toNat * 2000 / 10000))) ∧
      ((1000 : Int) - (Int.ofNat ((1000 : Int).toNat * 6000 / 10000)
          + Int.ofNat ((1000 : Int).toNat * 2000 / 10000)))
        + Int.ofNat ((1000 : Int).toNat * 6000 / 10000)
        + Int.ofNat ((1000 : Int).toNat * 2000 / 10000)
      = 1000 :=
  split_fba_balance_conservative 10000 2000 6000 2000
    { accumulated_fba_fees := 1000, current_supply := 1000000,
      is_configured := true, buyback_balance := 0, issuer_balance := 0 }
    (by decide) (by decide) (by decide) (by decide) (by decide) (by decide)

/-- Both branches of `initialize_budget_record` copy the core asset's
`accumulated_fees` into the record. -/
theorem initialize_budget_record_from_accumulated_fees (cycle_rate cycle_rate_bits : Nat)
    (st : MaintState) (now : Nat) :
    (initialize_budget_record cycle_rate cycle_rate_bits st now).from_accumulated_fees
      = st.accumulated_fees := by
  unfold initialize_budget_record
  split <;> rfl

/-- Both branches of `initialize_budget_record` copy the unspent
`dpo.witness_budget` into the record. -/
theorem initialize_budget_record_from_unused_witness_budget (cycle_rate cycle_rate_bits : Nat)
    (st : MaintState) (now : Nat) :
    (initialize_budget_record cycle_rate cycle_rate_bits st now).from_unused_witness_budget
      = st.witness_budget := by
  unfold initialize_budget_record
  split <;> rfl

/-- Claim C1: whenever `process_budget` completes, the core asset's
`current_supply` grows by exactly
`supply_delta = witness_budget + worker_budget - leftover_worker_funds -
accumulated_fees - prior witness_budget` (where `accumulated_fees` and the
prior `witness_budget` are the values read at the start of the pass), the
accumulated fees are zeroed, and `dpo.witness_budget` is overwritten — not
incremented — with the newly allocated witness budget
`min(requested, total_budget)`. -/
theorem process_budget_supply_delta (cycle_rate cycle_rate_bits : Nat)
    (st st2 : MaintState) (rec : budget_record)
    (h : process_budget cycle_rate cycle_rate_bits st = some (st2, rec)) :
    st2.current_supply = st.current_supply + rec.supply_delta ∧
    rec.supply_delta = rec.witness_budget + rec.worker_budget
        - rec.leftover_worker_funds - st.accumulated_fees - st.witness_budget ∧
    st2.accumulated_fees = 0 ∧
    st2.witness_budget = rec.witness_budget ∧
    rec.witness_budget = min rec.requested_witness_budget rec.total_budget := by
  unfold process_budget at h
  split at h
  · exact absurd h (by simp)
  split at h
  · exact absurd h (by simp)
  rw [Option.some.injEq, Prod.mk.injEq] at h
  obtain ⟨hst, hrec⟩ := h
  subst hst hrec
  refine ⟨rfl, ?_, rfl, rfl, rfl⟩
  simp only [initialize_budget_record_from_accumulated_fees,
    initialize_budget_record_from_unused_witness_budget]

/-- Witness for C1: a concrete non-first pass on `c1State`. -/
theorem process_budget_supply_delta_witness :
    c1Pair.1.current_supply = c1State.current_supply + c1Pair.2.supply_delta ∧
    c1Pair.2.supply_delta = c1Pair.2.witness_budget + c1Pair.2.worker_budget
        - c1Pair.2.leftover_worker_funds - c1State.accumulated_fees
        - c1State.witness_budget ∧
    c1Pair.1.accumulated_fees = 0 ∧
    c1Pair.1.witness_budget = c1Pair.2.witness_budget ∧
    c1Pair.2.witness_budget
        = min c1Pair.2.requested_witness_budget c1Pair.2.total_budget :=
  process_budget_supply_delta 17 32 c1State c1Pair.1 c1Pair.2 (by decide)

/-- Claim C4: `initialize_budget_record` computes
`total_budget = min(ceil(reserve * dt * CORE_ASSET_CYCLE_RATE / 2 ^ CYCLE_RATE_BITS), reserve)`
with `reserve = initial reserve + accumulated_fees + unused witness_budget`
(the ceiling division is written `(x + 2 ^ bits - 1) / 2 ^ bits`, exactly the
rounding-up shift of the source), and on a first pass (`last_budget_time`
unset or `now <= last_budget_time`) it records `time_since_last_budget = 0`
and leaves `total_budget` at its zero default.  The range hypotheses state
that the reserve is a valid non-negative `share_type` and that the 128-bit
intermediate does not wrap. -/
theorem initialize_budget_record_total_budget (cycle_rate cycle_rate_bits : Nat)
    (st : MaintState) (now : Nat) :
    ((st.last_budget_time = 0 ∨ now ≤ st.last_budget_time) →
      (initialize_budget_record cycle_rate cycle_rate_bits st now).time_since_last_budget
          = 0 ∧
      (initialize_budget_record cycle_rate cycle_rate_bits st now).total_budget = 0) ∧
    (st.last_budget_time ≠ 0 → st.last_budget_time < now →
      0 ≤ st.initial_reserve + st.accumulated_fees + st.witness_budget →
      st.initial_reserve + st.accumulated_fees + st.witness_budget < 2 ^ 63 →
      0 < cycle_rate →
      (st.initial_reserve + st.accumulated_fees + st.witness_budget).toNat
          * (now - st.last_budget_time) * cycle_rate + (2 ^ cycle_rate_bits - 1)
          < UINT128_MOD →
      (initialize_budget_record cycle_rate cycle_rate_bits st now).time_since_last_budget
          = now - st.last_budget_time ∧
      (initialize_budget_record cycle_rate cycle_rate_bits st now).total_budget
        = min
            (Int.ofNat
              (((st.initial_reserve + st.accumulated_fees + st.witness_budget).toNat
                  * (now - st.last_budget_time) * cycle_rate + (2 ^ cycle_rate_bits - 1))
                / 2 ^ cycle_rate_bits))
            (st.initial_reserve + st.accumulated_fees + st.witness_budget)) := by
  constructor
  · intro hfirst
    unfold initialize_budget_record
    rw [if_pos hfirst]
    exact ⟨rfl, rfl⟩
  · intro h0 h1 hres hres63 hcr hnw
    unfold initialize_budget_record
    rw [if_neg (by push_neg; exact ⟨h0, h1⟩)]
    refine ⟨rfl, ?_⟩
    set reserve : Int := st.initial_reserve + st.accumulated_fees + st.witness_budget
      with hreserve
    set dtN : Nat := now - st.last_budget_time with hdtN
    show (if ((((reserve.toNat * dtN % UINT128_MOD) * cycle_rate % UINT128_MOD
          + (2 ^ cycle_rate_bits - 1)) % UINT128_MOD / 2 ^ cycle_rate_bits : Nat) : Int)
            < reserve
        then Int.ofNat ((((reserve.toNat * dtN % UINT128_MOD) * cycle_rate % UINT128_MOD
            + (2 ^ cycle_rate_bits - 1)) % UINT128_MOD / 2 ^ cycle_rate_bits) % UINT64_MOD)
        else reserve)
      = min (Int.ofNat ((reserve.toNat * dtN * cycle_rate + (2 ^ cycle_rate_bits - 1))
          / 2 ^ cycle_rate_bits)) reserve
    have hmul1 : reserve.toNat * dtN < UINT128_MOD := by
      have h2 : reserve.toNat * dtN ≤ reserve.toNat * dtN * cycle_rate :=
        Nat.le_mul_of_pos_right _ hcr
      omega
    have hmul2 : reserve.toNat * dtN * cycle_rate < UINT128_MOD := by omega
    rw [Nat.mod_eq_of_lt hmul1, Nat.mod_eq_of_lt hmul2, Nat.mod_eq_of_lt hnw]
    set b4 : Nat :=
      (reserve.toNat * dtN * cycle_rate + (2 ^ cycle_rate_bits - 1)) / 2 ^ cycle_rate_bits
      with hb4
    split
    · rename_i hlt
      have hb4small : b4 < 2 ^ 63 := by
        have h3 : ((b4 : Nat) : Int) < (2 : Int) ^ 63 := lt_trans hlt hres63
        exact_mod_cast h3
      have hb464 : b4 % UINT64_MOD = b4 := Nat.mod_eq_of_lt (by unfold UINT64_MOD; omega)
      rw [hb464]
      exact (min_eq_left (le_of_lt hlt)).symm
    · rename_i hge
      exact (min_eq_right (le_of_not_lt hge)).symm

/-- Witness for C4, non-first-pass side: on `c4State` (reserve `500015`,
`dt = 1000`, rate `17`, rate bits `32`) the recorded budget is
`ceil(500015 * 1000 * 17 / 2 ^ 32) = 2`. -/
theorem initialize_budget_record_total_budget_witness :
    (initialize_budget_record 17 32 c4State 1100).time_since_last_budget = 1000 ∧
    (initialize_budget_record 17 32 c4State 1100).total_budget = 2 := by
  have h := (initialize_budget_record_total_budget 17 32 c4State 1100).2
    (by decide) (by decide) (by decide) (by decide) (by decide) (by decide)
  exact ⟨h.1, by rw [h.2]; decide⟩

/-- Claim C2, counterexample to the claim as stated: two candidates with
equal tallied votes where the candidate with the *lower object id* carries
the *higher vote_id*.  `sort_votable_objects` keeps the candidate with id 2
(vote_id 3) and omits the candidate with id 1 (vote_id 5), so the omitted
candidate X has a retained candidate Y with equal `total_votes` and
`Y.id > X.id` — the tie does not resolve by candidate id ascending. -/
theorem sort_votable_objects_id_tie_counterexample :
    (⟨1, 5⟩ : Votable) ∈ ([⟨1, 5⟩, ⟨2, 3⟩] : List Votable) ∧
    (⟨1, 5⟩ : Votable) ∉ sort_votable_objects c2Tally 1 [⟨1, 5⟩, ⟨2, 3⟩] ∧
    (⟨2, 3⟩ : Votable) ∈ sort_votable_objects c2Tally 1 [⟨1, 5⟩, ⟨2, 3⟩] ∧
    c2Tally (⟨1, 5⟩ : Votable).vote_id = c2Tally (⟨2, 3⟩ : Votable).vote_id ∧
    (⟨1, 5⟩ : Votable).id < (⟨2, 3⟩ : Votable).id := by decide

/-- Claim C2, amended: in `sort_votable_objects`, ties in tallied votes
resolve by candidate `vote_id` ascending (the candidate with the lower
`vote_id` — not the lower object id — is ordered first and preferred): no
omitted candidate X has a retained candidate Y with equal tallied votes and
`Y.vote_id > X.vote_id`.  The hypothesis that the candidates carry pairwise
distinct `vote_id`s always holds in the chain state, where each votable
object owns its own vote id. -/
theorem sort_votable_objects_vote_id_tie_break (tally : Nat → Nat) (k : Nat)
    (objs : List Votable) (X Y : Votable)
    (hnodup : (objs.map Votable.vote_id).Nodup)
    (hX : X ∈ objs)
    (hXout : X ∉ sort_votable_objects tally k objs)
    (hY : Y ∈ sort_votable_objects tally k objs)
    (htie : tally X.vote_id = tally Y.vote_id) :
    Y.vote_id < X.vote_id := by
  unfold sort_votable_objects at hXout hY
  set m := min k objs.length with hm
  set s := objs.insertionSort (votableLe tally) with hs
  have hperm : s.Perm objs := List.perm_insertionSort _ _
  have hXs : X ∈ s := hperm.mem_iff.mpr hX
  have hsorted : List.Sorted (votableLe tally) s := List.sorted_insertionSort _ _
  have hsplit : s = s.take m ++ s.drop m := (List.take_append_drop m s).symm
  have hXdrop : X ∈ s.drop m := by
    rcases List.mem_append.mp (hsplit ▸ hXs) with h | h
    · exact absurd h hXout
    · exact h
  have hle : votableLe tally Y X := by
    have hp : List.Pairwise (votableLe tally) (s.take m ++ s.drop m) := by
      rw [← hsplit]
      exact hsorted
    exact (List.pairwise_append.mp hp).2.2 Y hY X hXdrop
  have hXY : X ≠ Y := fun he => hXout (he ▸ hY)
  have hYobjs : Y ∈ objs := hperm.mem_iff.mp (List.take_subset m s hY)
  have hvne : Y.vote_id ≠ X.vote_id := by
    intro he
    exact hXY (List.inj_on_of_nodup_map hnodup hX hYobjs he.symm)
  rcases hle with hgt | ⟨_, hle2⟩
  · exact absurd (htie ▸ hgt) (lt_irrefl _)
  · exact lt_of_le_of_ne hle2 hvne

/-- Witness for C2's amended theorem at the concrete tie of the
counterexample: the retained candidate's vote_id 3 is below the omitted
candidate's vote_id 5. -/
theorem sort_votable_objects_vote_id_tie_break_witness :
    (⟨2, 3⟩ : Votable).vote_id < (⟨1, 5⟩ : Votable).vote_id :=
  sort_votable_objects_vote_id_tie_break c2Tally 1 [⟨1, 5⟩, ⟨2, 3⟩] ⟨1, 5⟩ ⟨2, 3⟩
    (by decide) (by decide) (by decide) (by decide) (by decide)

/-- Claim C3, counterexample to the claim as stated: with no voting stake
(`witness_count = 0`), `min_witness_count = 11` and only two witnesses in the
index, the elected set has size `2` — not `max(2*0+1, 11) = 11`, not odd and
below the floor — because `sort_votable_objects` clamps the requested count
to the index size. -/
theorem update_active_witnesses_size_counterexample :
    (update_active_witnesses_elected 0 [0] 11 c3Tally [⟨1, 0⟩, ⟨2, 1⟩]).length = 2 ∧
    max (update_active_witnesses_count 0 [0] * 2 + 1) 11 = 11 ∧
    (2 : Nat) ≠ 11 ∧ ¬ Odd (2 : Nat) ∧ (2 : Nat) < 11 := by decide

/-- Claim C3, amended: the elected witness set of `update_active_witnesses`
has size `min(max(2*witness_count+1, min_witness_count), size of the witness
index)`; whenever the index holds at least `max(2*witness_count+1,
min_witness_count)` witnesses and `min_witness_count` is odd (or is not the
binding bound), the size is odd and at least `min_witness_count`. -/
theorem update_active_witnesses_elected_size (total : Nat) (wh : List Nat)
    (minW : Nat) (tally : Nat → Nat) (ws : List Votable) :
    (update_active_witnesses_elected total wh minW tally ws).length
      = min (max (update_active_witnesses_count total wh * 2 + 1) minW) ws.length ∧
    (max (update_active_witnesses_count total wh * 2 + 1) minW ≤ ws.length →
      (Odd minW ∨ minW ≤ update_active_witnesses_count total wh * 2 + 1) →
      Odd (update_active_witnesses_elected total wh minW tally ws).length ∧
      minW ≤ (update_active_witnesses_elected total wh minW tally ws).length) := by
  have hlen : (update_active_witnesses_elected total wh minW tally ws).length
      = min (max (update_active_witnesses_count total wh * 2 + 1) minW) ws.length := by
    simp only [update_active_witnesses_elected, sort_votable_objects, List.length_take,
      (List.perm_insertionSort (votableLe tally) ws).length_eq]
    omega
  refine ⟨hlen, fun hreq hodd => ?_⟩
  rw [hlen]
  rw [Nat.odd_iff]
  rcases hodd with hodd | hle
  · rw [Nat.odd_iff] at hodd
    constructor <;> omega
  · constructor <;> omega

/-- Witness for C3's amended theorem: stake histogram yielding
`witness_count = 1`, floor 3, four witnesses in the index: the elected size
is `max(3, 3) = 3`, odd and at least the floor. -/
theorem update_active_witnesses_elected_size_witness :
    Odd (update_active_witnesses_elected 10 [0, 100] 3 c3Tally
      [⟨1, 0⟩, ⟨2, 1⟩, ⟨3, 2⟩, ⟨4, 3⟩]).length ∧
    3 ≤ (update_active_witnesses_elected 10 [0, 100] 3 c3Tally
      [⟨1, 0⟩, ⟨2, 1⟩, ⟨3, 2⟩, ⟨4, 3⟩]).length :=
  (update_active_witnesses_elected_size 10 [0, 100] 3 c3Tally
    [⟨1, 0⟩, ⟨2, 1⟩, ⟨3, 2⟩, ⟨4, 3⟩]).2 (by decide) (by decide)

/-- Claim C5, counterexample to the claim as stated: on `c5State` the elapsed
interval is `now - last_budget_time = 1000` seconds, so the claimed worker
budget is `floor(86400 * 1000 / 86400) = 1000` (uncapped: the witness budget
is 0 and the total budget is far larger), but `process_budget` records a
worker budget of `2000 = floor(86400 * (next_maintenance_time - now) /
86400)`. -/
theorem process_budget_worker_budget_counterexample :
    (process_budget 17 32 c5State).map (fun p => p.2.worker_budget) = some 2000 ∧
    c5State.worker_budget_per_day.toNat
        * (c5State.now - c5State.last_budget_time) / 86400 = 1000 ∧
    (process_budget 17 32 c5State).map
        (fun p => min (Int.ofNat (c5State.worker_budget_per_day.toNat
            * (c5State.now - c5State.last_budget_time) / 86400))
          (p.2.total_budget - p.2.witness_budget)) = some 1000 ∧
    (2000 : Int) ≠ 1000 := by decide

/-- Claim C5, amended: in `process_budget` the worker budget is
`floor(worker_budget_per_day * time_to_maint / 86400)` — where
`time_to_maint = next_maintenance_time - now` is the time *until the next
maintenance*, not the elapsed interval `now - last_budget_time` — capped at
the funds remaining after the witness budget allocation
(`total_budget - witness_budget`).  The hypothesis bounds the 128-bit
intermediate so that no wrap or narrowing occurs. -/
theorem process_budget_worker_budget (cycle_rate cycle_rate_bits : Nat)
    (st st2 : MaintState) (rec : budget_record)
    (h : process_budget cycle_rate cycle_rate_bits st = some (st2, rec))
    (hnw : st.worker_budget_per_day.toNat * (st.next_maintenance_time - st.now)
        < UINT64_MOD) :
    rec.worker_budget
      = min
          (Int.ofNat (st.worker_budget_per_day.toNat
            * (st.next_maintenance_time - st.now) / 86400))
          (rec.total_budget - rec.witness_budget) := by
  unfold process_budget at h
  split at h
  · exact absurd h (by simp)
  rename_i hpos
  split at h
  · exact absurd h (by simp)
  rw [Option.some.injEq, Prod.mk.injEq] at h
  obtain ⟨hst, hrec⟩ := h
  subst hst hrec
  have httm : ((st.next_maintenance_time : Int) - (st.now : Int)).toNat
      = st.next_maintenance_time - st.now := by omega
  show (if ((st.worker_budget_per_day.toNat
          * ((st.next_maintenance_time : Int) - (st.now : Int)).toNat
          % UINT128_MOD / 86400 : Nat) : Int)
          ≥ (initialize_budget_record cycle_rate cycle_rate_bits st st.now).total_budget
            - min (st.witness_pay_per_block
                * ((((st.next_maintenance_time : Int) - (st.now : Int)).toNat
                  + st.block_interval - 1) / st.block_interval : Nat))
              (initialize_budget_record cycle_rate cycle_rate_bits st st.now).total_budget
      then (initialize_budget_record cycle_rate cycle_rate_bits st st.now).total_budget
            - min (st.witness_pay_per_block
                * ((((st.next_maintenance_time : Int) - (st.now : Int)).toNat
                  + st.block_interval - 1) / st.block_interval : Nat))
              (initialize_budget_record cycle_rate cycle_rate_bits st st.now).total_budget
      else Int.ofNat (st.worker_budget_per_day.toNat
          * ((st.next_maintenance_time : Int) - (st.now : Int)).toNat
          % UINT128_MOD / 86400 % UINT64_MOD))
    = min
        (Int.ofNat (st.worker_budget_per_day.toNat
          * (st.next_maintenance_time - st.now) / 86400))
        ((initialize_budget_record cycle_rate cycle_rate_bits st st.now).total_budget
          - min (st.witness_pay_per_block
              * ((((st.next_maintenance_time : Int) - (st.now : Int)).toNat
                + st.block_interval - 1) / st.block_interval : Nat))
            (initialize_budget_record cycle_rate cycle_rate_bits st st.now).total_budget)
  rw [httm]
  have hmod128 : st.worker_budget_per_day.toNat * (st.next_maintenance_time - st.now)
      % UINT128_MOD
      = st.worker_budget_per_day.toNat * (st.next_maintenance_time - st.now) := by
    apply Nat.mod_eq_of_lt
    unfold UINT64_MOD at hnw
    unfold UINT128_MOD
    omega
  rw [hmod128]
  have hmod64 : st.worker_budget_per_day.toNat * (st.next_maintenance_time - st.now)
      / 86400 % UINT64_MOD
      = st.worker_budget_per_day.toNat * (st.next_maintenance_time - st.now) / 86400 := by
    apply Nat.mod_eq_of_lt
    have h4 : st.worker_budget_per_day.toNat * (st.next_maintenance_time - st.now)
        / 86400 ≤ st.worker_budget_per_day.toNat * (st.next_maintenance_time - st.now) :=
      Nat.div_le_self _ _
    omega
  rw [hmod64]
  split
  · rename_i hge
    exact (min_eq_right hge).symm
  · rename_i hlt
    exact (min_eq_left (le_of_lt (not_le.mp hlt))).symm

/-- Witness for C5's amended theorem: on `c5State`, the worker budget equals
`min(floor(86400 * 2000 / 86400), total_budget - witness_budget) = 2000`. -/
theorem process_budget_worker_budget_witness :
    c5Pair.2.worker_budget
      = min
          (Int.ofNat (c5State.worker_budget_per_day.toNat
            * (c5State.next_maintenance_time - c5State.now) / 86400))
          (c5Pair.2.total_budget - c5Pair.2.witness_budget) :=
  process_budget_worker_budget 17 32 c5State c5Pair.1 c5Pair.2 (by decide) (by decide)

/-- Claim C8 (code bug): the witness-count histogram update *drops* the stake
of an account voting for `num_witness` above `maximum_witness_count` instead
of clipping the vote to the cap.  With `maximum_witness_count = 2`
(histogram size 2) and a vote for `num_witness = 4` with stake 100, the
histogram is left unchanged; an in-range vote for the cap itself (the
behaviour the code comment and the spec describe for over-cap votes) would
have added the stake to the top bucket. -/
theorem witness_histogram_tally_drops_over_cap :
    witness_histogram_tally 2 4 100 [0, 0] = [0, 0] ∧
    witness_histogram_tally 2 2 100 [0, 0] = [0, 100] ∧
    ([0, 0] : List Nat) ≠ [0, 100] := by decide

/-- Claim C10: `pay_workers` keeps a non-negative budget non-negative
throughout, pays out in total exactly the difference between the initial and
the returned budget, every individual payment is non-negative (each is
`min(remaining budget, prorated requested pay)` by definition of
`pay_workers`), and a zero budget pays nobody. -/
theorem pay_workers_budget_conservation (now last : Nat) (budget : Int)
    (ws : List Nat) (h : 0 ≤ budget) :
    (pay_workers now last budget ws).1
        = budget - ((pay_workers now last budget ws).2).sum ∧
    0 ≤ (pay_workers now last budget ws).1 ∧
    (∀ p ∈ (pay_workers now last budget ws).2, 0 ≤ p) ∧
    (budget = 0 → (pay_workers now last budget ws).2 = []) := by
  induction ws generalizing budget with
  | nil =>
    simp [pay_workers]
    omega
  | cons w rest ih =>
    by_cases hb : budget > 0
    · have hreq : (0 : Int) ≤
          (if (now - last) * 1000000 = 86400000000 then Int.ofNat w
           else Int.ofNat
             (w * ((now - last) * 1000000) % UINT128_MOD
               / 86400000000 % UINT64_MOD)) := by
        split <;> exact Int.ofNat_nonneg _
      simp only [pay_workers, if_pos hb]
      set req : Int :=
        (if (now - last) * 1000000 = 86400000000 then Int.ofNat w
         else Int.ofNat
           (w * ((now - last) * 1000000) % UINT128_MOD
             / 86400000000 % UINT64_MOD)) with hreqdef
      have hmin0 : 0 ≤ min budget req := le_min (le_of_lt hb) hreq
      have hminb : min budget req ≤ budget := min_le_left _ _
      have hnext := ih (budget - min budget req) (by omega)
      refine ⟨?_, hnext.2.1, ?_, ?_⟩
      · simp only [List.sum_cons]
        omega
      · intro p hp
        rcases List.mem_cons.mp hp with hp | hp
        · omega
        · exact hnext.2.2.1 p hp
      · intro h0
        omega
    · have hb0 : budget = 0 := le_antisymm (not_lt.mp hb) h
      simp [pay_workers, hb, hb0]

/-- Witness for C10: a concrete run with budget 100 and three workers each
requesting a prorated `86400 * 1000 / 86400 = 1000`: the first worker gets
the whole budget and the run stops with a zero budget. -/
theorem pay_workers_budget_conservation_witness :
    (pay_workers 1100 100 100 [86400, 86400, 86400]).1
        = 100 - ((pay_workers 1100 100 100 [86400, 86400, 86400]).2).sum ∧
    0 ≤ (pay_workers 1100 100 100 [86400, 86400, 86400]).1 ∧
    (∀ p ∈ (pay_workers 1100 100 100 [86400, 86400, 86400]).2, 0 ≤ p) ∧
    ((100 : Int) = 0 → (pay_workers 1100 100 100 [86400, 86400, 86400]).2 = []) :=
  pay_workers_budget_conservation 1100 100 100 [86400, 86400, 86400] (by decide)

end DbMaint
